import Mathlib

/-!
Verification of the vehicle-catalog reconciliation/sync engine.

Shallow embedding of:
- `src/services/vehicle-filters.ts` (`VehicleFilters.shouldOmitVehicle`)
- `src/services/sync-service.ts` (`SyncService`: `generateVersionHash`,
  `needsUpdate`, `processVehicle`, `downloadImage`, `downloadAllImages`,
  the reconcile batch of `syncAll` and its cleanup phase)
- `src/services/asofix-api.ts` (`getVehicleByLicensePlate`, at its interface)
- `database/final_schema.sql` (table shapes)

Conventions used throughout:
- JS numbers are modelled as `Rat` (prices) and `Int`/`Nat` (counts, ids);
  timestamps are `Nat` milliseconds, `NOW()` is an explicit `now` parameter.
- Nullable / optional JS values are `Option`.
- SQL tables are association lists; each statement of the source is mirrored
  by one helper operating on the list.
- External collaborators (the HTTP catalog, the network, `JSON.stringify`
  composed with the crypto digest) are injected as function parameters.
- `try/catch` around single SQL statements is dropped (the model executes
  the no-DB-error path); the failure of the image download and of the
  catalog point lookup, which the claims are about, are modelled explicitly.
-/

namespace CarSync

/-- JS `haystack.includes(needle)`: substring containment. -/
def jsIncludes (haystack needle : String) : Bool :=
  decide (needle.toList <:+: haystack.toList)

/-- JS `s.toUpperCase()` (character-wise; the engine only compares ASCII
status words such as "ACTIVO"). -/
def jsToUpper (s : String) : String := ⟨s.data.map Char.toUpper⟩

/-- JS `s.toLowerCase()` (character-wise). -/
def jsToLower (s : String) : String := ⟨s.data.map Char.toLower⟩

/-- JS `s.trim()`. -/
def jsTrim (s : String) : String :=
  ⟨((s.data.dropWhile Char.isWhitespace).reverse.dropWhile Char.isWhitespace).reverse⟩

/-- JS truthiness of an optional string (`undefined`/`null`/`""` are falsy). -/
def strTruthy : Option String → Bool
  | none => false
  | some s => s ≠ ""

/-- One entry of `AsofixVehicle.stocks` (from `asofix-api.ts`). -/
structure Stock where
  status : Option String
  branch_office_name : Option String
  location_name : Option String
deriving DecidableEq, Repr

/-- `AsofixVehicle.price` (from `asofix-api.ts`). -/
structure PriceBlock where
  list_price : Option Rat
  currency_name : Option String
deriving DecidableEq, Repr

/-- One entry of `AsofixVehicle.colors`. -/
structure Color where
  name : Option String
deriving DecidableEq, Repr

/-- One entry of `AsofixVehicle.images`. -/
structure Image where
  url : Option String
deriving DecidableEq, Repr

/-- The external record: `AsofixVehicle` of `asofix-api.ts`. -/
structure AsofixVehicle where
  id : String
  brand_name : Option String
  model_name : Option String
  version : Option String
  description : Option String
  year : Option Int
  kilometres : Option Int
  license_plate : Option String
  origin : Option String
  car_condition : Option String
  car_transmission : Option String
  car_fuel_type : Option String
  car_segment : Option String
  price : Option PriceBlock
  colors : List Color
  stocks : List Stock
  images : List Image
deriving DecidableEq, Repr

/-- The configuration surface read by the Filter Evaluator
(`filterConfig` of `config/filters.ts`, fed from the environment:
`BLOCKED_BRANCH_OFFICES`, `MIN_PRICE`, `BLOCKED_STATUSES`, `REQUIRE_IMAGES`). -/
structure FilterConfig where
  blockedBranchOffices : List String
  minPrice : Rat
  blockedStatuses : List String
  requireImages : Bool
deriving DecidableEq, Repr

/-- Result shape of `VehicleFilters.shouldOmitVehicle`. -/
structure OmitResult where
  «omit» : Bool
  reason : Option String
deriving DecidableEq, Repr

/-- `stock.status && stock.status.toUpperCase() === 'ACTIVO'`. -/
def stockIsActive (stock : Stock) : Bool :=
  match stock.status with
  | none => false
  | some s => jsToUpper s == "ACTIVO"

/-- `vehicle.price?.list_price || 0` run through `parseFloat(String(·))`. -/
def listPriceOf (v : AsofixVehicle) : Rat :=
  ((v.price.bind (·.list_price)).getD 0)

/-- Reason text of filter 1 of `shouldOmitVehicle`. -/
def reasonNoActiveStock : String := "No tiene stock activo"

/-- Reason text of filter 4 of `shouldOmitVehicle`. -/
def reasonMissingPlate : String := "License plate es NULL o vacío"

/-- Reason text of filter 5 of `shouldOmitVehicle`. -/
def reasonNoImages : String := "No tiene imágenes asociadas (REQUIRE_IMAGES=true)"

/-- Reason text of the blocked-location filter, for one configured entry:
mirrors the two template strings of `shouldOmitVehicle`, preferring
`location_name` and falling back to `branch_office_name`. -/
def blockedOfficeReason (activeStock : Stock) (blockedOffice : String) : Option String :=
  let locationName := jsToLower ((activeStock.location_name).getD "")
  let branchName := jsToLower ((activeStock.branch_office_name).getD "")
  let blockedLower := jsToLower blockedOffice
  if jsIncludes locationName blockedLower then
    some ("Concesionaria bloqueada: " ++ (activeStock.location_name).getD "N/A"
      ++ " (filtro: " ++ blockedOffice ++ ", campo: location_name)")
  else if jsIncludes branchName blockedLower then
    some ("Concesionaria bloqueada: " ++ (activeStock.branch_office_name).getD "N/A"
      ++ " (filtro: " ++ blockedOffice ++ ", campo: branch_office_name)")
  else
    none

/-- Reason text of the price filter. -/
def priceReason (cfg : FilterConfig) (price : Rat) : String :=
  "Precio (" ++ toString price ++ ") menor o igual al mínimo permitido ("
    ++ toString cfg.minPrice ++ ")"

/-- Reason text of the blocked-status filter, for one configured entry. -/
def blockedStatusReason (activeStock : Stock) (blockedStatus : String) : Option String :=
  let stockStatus := jsToLower ((activeStock.status).getD "")
  if stockStatus == jsToLower blockedStatus then
    some ("Estado bloqueado: " ++ (activeStock.status).getD ""
      ++ " (filtro: " ++ blockedStatus ++ ")")
  else
    none

/-- `VehicleFilters.shouldOmitVehicle` (vehicle-filters.ts, lines 22-97):
the Filter Evaluator. Checks run in source order, short-circuiting:
active stock, blocked location, minimum price, blocked status,
license plate, images. -/
def shouldOmitVehicle (cfg : FilterConfig) (v : AsofixVehicle) : OmitResult :=
  match v.stocks.find? stockIsActive with
  | none => ⟨true, some reasonNoActiveStock⟩
  | some activeStock =>
    match cfg.blockedBranchOffices.findSome? (blockedOfficeReason activeStock) with
    | some reason => ⟨true, some reason⟩
    | none =>
      let price := listPriceOf v
      if price ≤ cfg.minPrice then
        ⟨true, some (priceReason cfg price)⟩
      else
        match cfg.blockedStatuses.findSome? (blockedStatusReason activeStock) with
        | some reason => ⟨true, some reason⟩
        | none =>
          if !strTruthy v.license_plate
              || (jsTrim ((v.license_plate).getD "")).length == 0 then
            ⟨true, some reasonMissingPlate⟩
          else
            if cfg.requireImages
                && !(v.images.length > 0
                     && v.images.any (fun img => strTruthy img.url
                          && (jsTrim ((img.url).getD "")).length > 0)) then
              ⟨true, some reasonNoImages⟩
            else
              ⟨false, none⟩

/-! ### Spec-side Filter Evaluator (for the refinement claim C1)

The following definitions follow the WORDING of spec §4.1: six independent
checks, and a cascade that reports the reason of the earliest failing check.
The reason payloads reuse the source templates (the spec names only reason
buckets); the verified content is which check fires and in which order. -/

/-- Spec §4.1, the active offer: the first stock entry whose status equals
"ACTIVO" case-insensitively. -/
def activeStockOf (v : AsofixVehicle) : Option Stock :=
  v.stocks.find? stockIsActive

/-- Spec check 1 fails: no stock entry whose status equals "ACTIVO"
case-insensitively. -/
def specNoActiveStock (v : AsofixVehicle) : Bool :=
  !(v.stocks.any stockIsActive)

/-- Spec check 2 fails: some configured blocked-location substring occurs
case-insensitively in the active offer location name or branch-office name. -/
def specBlockedLocation (cfg : FilterConfig) (v : AsofixVehicle) : Bool :=
  match activeStockOf v with
  | none => false
  | some s =>
    cfg.blockedBranchOffices.any (fun b =>
      jsIncludes (jsToLower ((s.location_name).getD "")) (jsToLower b)
        || jsIncludes (jsToLower ((s.branch_office_name).getD "")) (jsToLower b))

/-- Spec check 3 fails: list price not strictly greater than the minimum. -/
def specPriceTooLow (cfg : FilterConfig) (v : AsofixVehicle) : Bool :=
  listPriceOf v ≤ cfg.minPrice

/-- Spec check 4 fails: the active offer status equals a configured blocked
status value (case-insensitively). -/
def specBlockedStatus (cfg : FilterConfig) (v : AsofixVehicle) : Bool :=
  match activeStockOf v with
  | none => false
  | some s =>
    cfg.blockedStatuses.any (fun b => jsToLower ((s.status).getD "") == jsToLower b)

/-- Spec check 5 fails: the license plate is missing or blank. -/
def specMissingPlate (v : AsofixVehicle) : Bool :=
  match v.license_plate with
  | none => true
  | some p => p == "" || (jsTrim p).length == 0

/-- Spec check 6 fails: images are required and no non-blank image URL
is present. -/
def specNoImages (cfg : FilterConfig) (v : AsofixVehicle) : Bool :=
  cfg.requireImages
    && !(v.images.any (fun img => strTruthy img.url
          && (jsTrim ((img.url).getD "")).length > 0))

/-- Spec-side Filter Evaluator: evaluate the six checks of §4.1 in the fixed
priority order and report the verdict together with the reason of the
earliest failing check. -/
def specFilterEvaluator (cfg : FilterConfig) (v : AsofixVehicle) : OmitResult :=
  if specNoActiveStock v then ⟨true, some reasonNoActiveStock⟩
  else if specBlockedLocation cfg v then
    ⟨true, ((activeStockOf v).getD ⟨none, none, none⟩
        |> fun s => cfg.blockedBranchOffices.findSome? (blockedOfficeReason s))⟩
  else if specPriceTooLow cfg v then
    ⟨true, some (priceReason cfg (listPriceOf v))⟩
  else if specBlockedStatus cfg v then
    ⟨true, ((activeStockOf v).getD ⟨none, none, none⟩
        |> fun s => cfg.blockedStatuses.findSome? (blockedStatusReason s))⟩
  else if specMissingPlate v then ⟨true, some reasonMissingPlate⟩
  else if specNoImages cfg v then ⟨true, some reasonNoImages⟩
  else ⟨false, none⟩

/-! ### Version Fingerprint (`SyncService.generateVersionHash`) -/

/-- The image-URL list of a record as the upsert path computes it:
`(vehicle.images || []).map(img => img.url || '').filter(url => url)`. -/
def imageUrlsOf (v : AsofixVehicle) : List String :=
  (v.images.map (fun img => (img.url).getD "")).filter (fun url => url ≠ "")

/-- The sorted image-URL list of `generateVersionHash`
(`.map(img => img.url || '').filter(url => url).sort()`). -/
def sortedImageUrls (v : AsofixVehicle) : List String :=
  (imageUrlsOf v).insertionSort (· ≤ ·)

/-- The canonical projection `relevantData` built by `generateVersionHash`
(sync-service.ts lines 192-209), field for field. -/
structure RelevantData where
  id : String
  title : String
  description : String
  year : Option Int
  kilometres : Option Int
  price : Rat
  currency : String
  condition : Option String
  transmission : Option String
  fuel_type : Option String
  segment : Option String
  color : String
  license_plate : Option String
  images_urls : List String
  images_count : Nat
  stock_status : String
deriving DecidableEq, Repr

/-- `relevantData` of `generateVersionHash`. -/
def relevantData (v : AsofixVehicle) : RelevantData where
  id := v.id
  title := jsTrim ((v.brand_name).getD "" ++ " " ++ (v.model_name).getD ""
      ++ " " ++ (v.version).getD "")
  description := (v.description).getD ""
  year := v.year
  kilometres := v.kilometres
  price := listPriceOf v
  currency := (v.price.bind (·.currency_name)).getD ""
  condition := v.car_condition
  transmission := v.car_transmission
  fuel_type := v.car_fuel_type
  segment := v.car_segment
  color := ((v.colors.head?.bind (·.name)).getD "")
  license_plate := v.license_plate
  images_urls := sortedImageUrls v
  images_count := (sortedImageUrls v).length
  stock_status := (((v.stocks.find? stockIsActive).bind (·.status)).getD "")

/-- `SyncService.generateVersionHash`: the composition of `JSON.stringify`
and the sha256 hex digest is external to the repository and injected as
`digest`; the engine only ever compares the resulting opaque strings. -/
def generateVersionHash (digest : RelevantData → String) (v : AsofixVehicle) : String :=
  digest (relevantData v)

/-! ### Local Store model (tables of `database/final_schema.sql`) -/

/-- One element of the `stock_info` array stored in `additional_data`
by the upsert path of `processVehicle`. -/
structure StockInfo where
  status : Option String
  branch_office_name : Option String
  location_name : Option String
deriving DecidableEq, Repr

/-- The semi-structured `additional_data` JSON document of a vehicle row,
modelled as the audit fields the engine reads/writes plus the payload the
upsert path stores. `brand_id`/`model_id` are cast-through fields absent
from the `AsofixVehicle` interface and are not modelled. -/
structure AdditionalData where
  filter_reason : Option String
  cleanup_verification : Option String
  archived_at : Option String
  keep_published : Bool
  version : Option String
  stock_info : List StockInfo
  colors : List Color
  original_price : Option PriceBlock
deriving DecidableEq, Repr

instance : Inhabited AdditionalData :=
  ⟨⟨none, none, none, false, none, [], [], none⟩⟩

/-- A row of `vehicles`. Timestamps are `Nat` milliseconds. The schema
declares `updated_at ... ON UPDATE CURRENT_TIMESTAMP`; the model mirrors
the SQL statements as written (each explicit `SET` of the source). -/
structure VehicleRow where
  id : Nat
  asofix_id : String
  title : String
  content : String
  status : String
  year : Option Int
  kilometres : Int
  license_plate : Option String
  price_usd : Option Rat
  price_ars : Option Rat
  featured_image_id : Option Nat
  created_at : Nat
  updated_at : Option Nat
  last_synced_at : Option Nat
  asofix_updated_at : Option Nat
  version_hash : Option String
  additional_data : AdditionalData
deriving DecidableEq, Repr

/-- A row of `vehicle_images` (`is_featured` defaults to 0, `sort_order`
to 0; the sync engine inserts only `vehicle_id, image_url, file_path`). -/
structure ImageRow where
  id : Nat
  vehicle_id : Nat
  image_url : String
  file_path : Option String
  is_featured : Bool
  sort_order : Int
deriving DecidableEq, Repr

/-- A row of `pending_images`. -/
structure PendingRow where
  id : Nat
  vehicle_id : Nat
  image_url : String
deriving DecidableEq, Repr

/-- A row of `taxonomy_terms`. -/
structure TermRow where
  id : Nat
  taxonomy : String
  name : String
deriving DecidableEq, Repr

/-- A row of `vehicle_taxonomies` (the surrogate id plays no role in the
engine and is not modelled). -/
structure VehTaxRow where
  vehicle_id : Nat
  taxonomy : String
  term_id : Nat
deriving DecidableEq, Repr

/-- The Local Store: the tables plus `AUTO_INCREMENT` counters. Lists keep
insertion order, so `ORDER BY id` reads are the lists themselves. -/
structure DB where
  vehicles : List VehicleRow
  vehicle_images : List ImageRow
  pending_images : List PendingRow
  taxonomy_terms : List TermRow
  vehicle_taxonomies : List VehTaxRow
  nextVehicleId : Nat
  nextImageId : Nat
  nextPendingId : Nat
  nextTermId : Nat
deriving DecidableEq, Repr

/-- `UPDATE vehicles SET ... WHERE p` as a row map. -/
def updateVehicles (db : DB) (p : VehicleRow → Bool) (f : VehicleRow → VehicleRow) : DB :=
  { db with vehicles := db.vehicles.map (fun r => if p r then f r else r) }

/-- `SyncService.findVehicleByAsofixId`:
`SELECT id FROM vehicles WHERE asofix_id = ?`, first row or null. -/
def findVehicleByAsofixId (db : DB) (asofixId : String) : Option Nat :=
  (db.vehicles.find? (fun r => r.asofix_id == asofixId)).map (·.id)

/-- `SyncService.getOrCreateTerm`: returns the id of the `(taxonomy, name)`
term, inserting it when absent; null for a blank name. -/
def getOrCreateTerm (db : DB) (taxonomy termName : String) : Option Nat × DB :=
  if termName == "" || jsTrim termName == "" then (none, db)
  else
    match db.taxonomy_terms.find? (fun t =>
        t.taxonomy == taxonomy && t.name == jsTrim termName) with
    | some t => (some t.id, db)
    | none =>
      let tid := db.nextTermId
      (some tid,
        { db with taxonomy_terms := db.taxonomy_terms ++ [⟨tid, taxonomy, jsTrim termName⟩],
                  nextTermId := tid + 1 })

/-- The `taxonomyMap` of `SyncService.assignTaxonomies`, in object-entry
order. -/
def taxonomyMap (v : AsofixVehicle) : List (String × Option String) :=
  [ ("brand", v.brand_name),
    ("model", v.model_name),
    ("condition", some (if v.car_condition == some "new" then "0KM" else "Usado")),
    ("transmission", v.car_transmission),
    ("fuel_type", v.car_fuel_type),
    ("color", v.colors.head?.bind (·.name)),
    ("segment", v.car_segment) ]

/-- `SyncService.assignTaxonomies`: per category, a delete of the vehicle
assignments of that category followed by one insert. -/
def assignTaxonomies (db : DB) (vehicleId : Nat) (v : AsofixVehicle) : DB :=
  (taxonomyMap v).foldl (fun db entry =>
    match entry.2 with
    | none => db
    | some termName =>
      if termName == "" then db
      else
        match getOrCreateTerm db entry.1 termName with
        | (none, db1) => db1
        | (some termId, db1) =>
          { db1 with
            vehicle_taxonomies :=
              (db1.vehicle_taxonomies.filter (fun a =>
                !(a.vehicle_id == vehicleId && a.taxonomy == entry.1)))
              ++ [⟨vehicleId, entry.1, termId⟩] }) db

/-- `SyncService.setVehicleMetadata`: kilometre normalisation, the
currency-based price split, and one UPDATE. -/
def setVehicleMetadata (now : Nat) (db : DB) (vehicleId : Nat) (v : AsofixVehicle) : DB :=
  let kilometres := (v.kilometres).getD 0
  let finalKilometres := if kilometres < 100 then 0 else kilometres
  let price := listPriceOf v
  let currency := jsToLower ((v.price.bind (·.currency_name)).getD "")
  let priceUsd : Option Rat :=
    if jsIncludes currency "dolar" || jsIncludes currency "usd" then
      if price ≥ 1000 then some price else none
    else if price > 901000 then none
    else if price ≥ 1000 && price ≤ 900000 then some price
    else none
  let priceArs : Option Rat :=
    if jsIncludes currency "dolar" || jsIncludes currency "usd" then none
    else if price > 901000 then some price
    else none
  updateVehicles db (fun r => r.id == vehicleId) (fun r =>
    { r with kilometres := finalKilometres, year := v.year,
             license_plate := v.license_plate,
             price_usd := priceUsd, price_ars := priceArs,
             updated_at := some now })

/-- `SyncService.savePendingImages`: no-op on an empty URL list, otherwise
delete every pending row of the vehicle and insert the given URLs. -/
def savePendingImages (db : DB) (vehicleId : Nat) (imageUrls : List String) : DB :=
  if imageUrls.length == 0 then db
  else
    let db1 := { db with pending_images :=
      db.pending_images.filter (fun p => !(p.vehicle_id == vehicleId)) }
    imageUrls.foldl (fun db url =>
      { db with pending_images := db.pending_images ++ [⟨db.nextPendingId, vehicleId, url⟩],
                nextPendingId := db.nextPendingId + 1 }) db1

/-- `SyncService.needsUpdate`: a record needs the write path when no row
carries its id or the stored `version_hash` differs from the new hash. -/
def needsUpdate (db : DB) (asofixId : String) (newHash : String) : Bool :=
  match db.vehicles.find? (fun r => r.asofix_id == asofixId) with
  | none => true
  | some row => row.version_hash != some newHash

/-- The `filter_reason` bucket derivation of the archive branch of
`processVehicle` (sync-service.ts lines 276-287). -/
def deriveFilterReason : Option String → String
  | none => "unknown"
  | some r =>
    let lower := jsToLower r
    if jsIncludes lower "dakota" || jsIncludes lower "location_name" then "dakota_location"
    else if jsIncludes lower "precio" then "min_price"
    else if jsIncludes lower "estado" then "blocked_status"
    else if jsIncludes lower "imagen" then "no_images"
    else if jsIncludes lower "stock" then "no_active_stock"
    else "unknown"

/-! ### Reconciler: `SyncService.processVehicle` -/

/-- Result shape of `processVehicle`. JS fields left `undefined` by a
return site are modelled by their falsy defaults (`false`, `none`). -/
structure ProcessResult where
  success : Bool
  message : String
  vehicleId : Option Nat
  wasNew : Bool
  wasUpdated : Bool
  filtered : Bool
deriving DecidableEq, Repr

/-- The upsert-path `additionalData` object of `processVehicle`
(sync-service.ts lines 363-374): replaces the whole document. -/
def upsertAdditionalData (v : AsofixVehicle) : AdditionalData where
  filter_reason := none
  cleanup_verification := none
  archived_at := none
  keep_published := false
  version := v.version
  stock_info := v.stocks.map (fun s => ⟨s.status, s.branch_office_name, s.location_name⟩)
  colors := v.colors
  original_price := v.price

/-- `SyncService.processVehicle` (sync-service.ts lines 241-475):
filter, archive/reactivate, fingerprint, incremental skip, upsert,
taxonomy and metadata writes, pending-image reconciliation.
`digest` is the fingerprint digest, `now` the clock. -/
def processVehicle (cfg : FilterConfig) (digest : RelevantData → String) (now : Nat)
    (incremental : Bool) (v : AsofixVehicle) (db : DB) : ProcessResult × DB :=
  let asofixId := v.id
  if asofixId == "" then
    (⟨false, "Falta Asofix ID", none, false, false, false⟩, db)
  else
    let fres := shouldOmitVehicle cfg v
    let existingId := findVehicleByAsofixId db asofixId
    if fres.omit then
      let db1 :=
        match existingId with
        | none => db
        | some eid =>
          let filterReason := deriveFilterReason fres.reason
          updateVehicles db (fun r => r.id == eid) (fun r =>
            { r with status := "archived",
                     additional_data :=
                       { r.additional_data with filter_reason := some filterReason },
                     updated_at := some now })
      (⟨true, "FILTRADO: " ++ fres.reason.getD "", none, false, false, true⟩, db1)
    else
      let db1 :=
        match existingId with
        | none => db
        | some eid =>
          match db.vehicles.find? (fun r => r.id == eid) with
          | none => db
          | some row =>
            if row.status == "archived" then
              updateVehicles db (fun r => r.id == eid) (fun r =>
                { r with status := "published",
                         additional_data :=
                           { r.additional_data with filter_reason := none },
                         updated_at := some now })
            else db
      let versionHash := generateVersionHash digest v
      if incremental && !needsUpdate db1 asofixId versionHash then
        (⟨true, "Sin cambios para " ++ asofixId, none, false, false, false⟩,
         updateVehicles db1 (fun r => r.asofix_id == asofixId) (fun r =>
           { r with last_synced_at := some now }))
      else
        let brand := (v.brand_name).getD ""
        let model := (v.model_name).getD ""
        let version := (v.version).getD ""
        let title0 := jsTrim (brand ++ " " ++ model ++ " " ++ version)
        let title := if title0 == "" then "Vehículo Asofix ID: " ++ asofixId else title0
        let content := (v.description).getD ""
        match findVehicleByAsofixId db1 asofixId with
        | some vehicleId =>
          let db2 := updateVehicles db1 (fun r => r.id == vehicleId) (fun r =>
            { r with title := title, content := content, status := "published",
                     version_hash := some versionHash,
                     last_synced_at := some now, asofix_updated_at := some now,
                     additional_data := upsertAdditionalData v,
                     updated_at := some now })
          let newImageUrls := imageUrlsOf v
          let existingUrls :=
            ((db2.vehicle_images.filter (fun r => r.vehicle_id == vehicleId)).map
              (·.image_url)).filter (fun url => url ≠ "")
          let urlsToDelete := existingUrls.filter (fun url => !newImageUrls.contains url)
          let urlsToAdd := newImageUrls.filter (fun url => !existingUrls.contains url)
          let db3 :=
            if urlsToDelete.length > 0 then
              { db2 with vehicle_images := db2.vehicle_images.filter (fun r =>
                  !(r.vehicle_id == vehicleId && urlsToDelete.contains r.image_url)) }
            else db2
          let db4 :=
            if urlsToAdd.length > 0 then savePendingImages db3 vehicleId urlsToAdd
            else { db3 with pending_images :=
              db3.pending_images.filter (fun p => !(p.vehicle_id == vehicleId)) }
          let db5 := assignTaxonomies db4 vehicleId v
          let db6 := setVehicleMetadata now db5 vehicleId v
          (⟨true, "ACTUALIZADO: " ++ asofixId ++ " (Vehicle ID: " ++ toString vehicleId ++ ")",
            some vehicleId, false, true, false⟩, db6)
        | none =>
          let vehicleId := db1.nextVehicleId
          let newRow : VehicleRow :=
            { id := vehicleId, asofix_id := asofixId, title := title, content := content,
              status := "published", year := none, kilometres := 0, license_plate := none,
              price_usd := none, price_ars := none, featured_image_id := none,
              created_at := now, updated_at := some now, last_synced_at := some now,
              asofix_updated_at := some now, version_hash := some versionHash,
              additional_data := upsertAdditionalData v }
          let db2 := { db1 with vehicles := db1.vehicles ++ [newRow],
                                nextVehicleId := vehicleId + 1 }
          let db3 := assignTaxonomies db2 vehicleId v
          let db4 := setVehicleMetadata now db3 vehicleId v
          let db5 := savePendingImages db4 vehicleId (imageUrlsOf v)
          (⟨true, "NUEVO: " ++ asofixId ++ " creado (Vehicle ID: " ++ toString vehicleId ++ ")",
            some vehicleId, true, false, false⟩, db5)

/-! ### Reconcile batch: Valid-Set Tracker updates and the retry loop
(`SyncService.syncAll`, Fase 1.2, lines 830-941) -/

/-- `Set.add` of the run-scoped `validVehicleIds`. -/
def setAdd (l : List String) (x : String) : List String :=
  if l.contains x then l else l ++ [x]

/-- `const asofixId = vehicle.id || 'ID_DESCONOCIDO'`. -/
def asofixIdOf (v : AsofixVehicle) : String :=
  if v.id == "" then "ID_DESCONOCIDO" else v.id

/-- The guard `asofixId && asofixId !== 'ID_DESCONOCIDO'` used by every
tracker insertion of the batch loop. -/
def idUsable (s : String) : Bool :=
  s ≠ "" && s ≠ "ID_DESCONOCIDO"

/-- The Valid-Set Tracker updates performed after one `processVehicle`
return (no throw): the two success-side insertions (lines 862-874) and the
failure-side admissibility re-check insertion (lines 903-916). -/
def trackerAfterResult (cfg : FilterConfig) (v : AsofixVehicle) (r : ProcessResult)
    (valid : List String) : List String :=
  let asofixId := asofixIdOf v
  let valid1 :=
    if r.success && !r.filtered && idUsable asofixId then setAdd valid asofixId
    else if r.success && jsIncludes r.message "Sin cambios" && idUsable asofixId then
      setAdd valid asofixId
    else valid
  if r.success then valid1
  else if !(shouldOmitVehicle cfg v).omit && idUsable asofixId then setAdd valid1 asofixId
  else valid1

/-- One modelled invocation of `processVehicle` inside the batch loop:
it either returns a result or throws. -/
inductive Attempt
  | ret (r : ProcessResult)
  | thrown (msg : String)
deriving DecidableEq, Repr

/-- How the per-record retry loop ended. -/
inductive RecordOutcome
  | finished (r : ProcessResult)
  | exhausted
  | incomplete
deriving DecidableEq, Repr

/-- `const maxRetries = 3` of the reconcile batch. -/
def maxRetries : Nat := 3

/-- The per-record retry loop of the reconcile batch
(`while (retryCount < maxRetries && !success)`): a returned result ends the
loop and applies the tracker logic; a throw retries until the ceiling,
after which the admissible-despite-error insertion runs (lines 917-937).
`RecordOutcome.incomplete` marks a modelled attempt list too short to
finish the loop. -/
def runRecordLoop (cfg : FilterConfig) (v : AsofixVehicle) :
    List Attempt → Nat → List String → RecordOutcome × List String
  | [], _, valid => (.incomplete, valid)
  | .ret r :: _, _, valid => (.finished r, trackerAfterResult cfg v r valid)
  | .thrown _ :: rest, retryCount, valid =>
    if retryCount + 1 ≥ maxRetries then
      (.exhausted,
       if !(shouldOmitVehicle cfg v).omit && idUsable (asofixIdOf v) then
         setAdd valid (asofixIdOf v)
       else valid)
    else runRecordLoop cfg v rest (retryCount + 1) valid

/-- A record's processing in the batch, starting from `retryCount = 0`. -/
def runRecord (cfg : FilterConfig) (v : AsofixVehicle) (attempts : List Attempt)
    (valid : List String) : RecordOutcome × List String :=
  runRecordLoop cfg v attempts 0 valid

/-! ### Cleanup phase (`SyncService.syncAll`, Fase 1.5, lines 1083-1256) -/

/-- Outcome of the Catalog Client point lookup
`asofixApi.getVehicleByLicensePlate`: the vehicle, null, or a thrown
error. -/
inductive LookupResult
  | found (v : AsofixVehicle)
  | notFound
  | err (msg : String)
deriving DecidableEq, Repr

/-- State threaded through the cleanup loop: the store, the run's
Valid-Set Tracker and the `fase1Archived` counter. -/
structure CleanupState where
  db : DB
  validIds : List String
  archived : Nat
deriving DecidableEq, Repr

/-- The archive write of the cleanup loop (sync-service.ts lines
1202-1221): status archived, the `not_in_valid_set` bucket, the
verification reason and the archive timestamp merged into
`additional_data`, `updated_at` refreshed. -/
def cleanupArchive (now : Nat) (st : CleanupState) (cand : VehicleRow)
    (verification : String) : CleanupState :=
  { db := updateVehicles st.db (fun r => r.id == cand.id) (fun r =>
      { r with status := "archived",
               additional_data :=
                 { r.additional_data with
                   filter_reason := some "not_in_valid_set",
                   cleanup_verification := some verification,
                   archived_at := some (toString now) },
               updated_at := some now }),
    validIds := st.validIds,
    archived := st.archived + 1 }

/-- One iteration of the cleanup loop (sync-service.ts lines 1116-1226)
for candidate snapshot row `cand`: the keep-published flag, the 48-hour
grace re-check, the point lookup by license plate and the archive
decision. `api` is the Catalog Client point lookup. -/
def cleanupCandidateStep (cfg : FilterConfig) (api : String → LookupResult) (now : Nat)
    (st : CleanupState) (cand : VehicleRow) : CleanupState :=
  let fresh := st.db.vehicles.find? (fun r => r.id == cand.id)
  let licensePlate : Option String := fresh.bind (·.license_plate)
  let recentlyUpdated : Bool :=
    match cand.updated_at with
    | none => false
    | some u => ((now : Int) - (u : Int)) < 48 * 3600000
  let ad : AdditionalData := (fresh.map (·.additional_data)).getD default
  if ad.keep_published then
    { st with validIds := setAdd st.validIds cand.asofix_id }
  else if recentlyUpdated then
    { st with validIds := setAdd st.validIds cand.asofix_id }
  else
    let decision : Bool × String × Bool :=
      match licensePlate with
      | some p =>
        if (jsTrim p).length > 0 then
          match api p with
          | .found apiV =>
            if apiV.id == cand.asofix_id then
              let r := shouldOmitVehicle cfg apiV
              if !r.omit then (false, "valido_en_api", true)
              else (true, "filtrado_en_api: " ++ r.reason.getD "", false)
            else (true, "no_encontrado_en_api", false)
          | .notFound => (true, "no_encontrado_en_api", false)
          | .err m => (true, "error_consulta_api: " ++ m, false)
        else (true, "sin_license_plate", false)
      | none => (true, "sin_license_plate", false)
    if decision.1 then
      cleanupArchive now st cand decision.2.1
    else
      { st with validIds :=
          if decision.2.2 then setAdd st.validIds cand.asofix_id else st.validIds }

/-- The candidate query of the cleanup phase: published vehicles whose
`asofix_id` is not in the Valid-Set Tracker and whose `updated_at` is
older than 48 hours or null (`LIMIT 10000` not modelled). -/
def cleanupCandidates (now : Nat) (validIds : List String) (db : DB) : List VehicleRow :=
  db.vehicles.filter (fun r =>
    r.status == "published" && !validIds.contains r.asofix_id &&
      (match r.updated_at with
       | some u => (u : Int) < (now : Int) - 48 * 3600000
       | none => true))

/-- The cleanup phase of `syncAll` (Fase 1.5): skipped outright when the
Valid-Set Tracker is empty, otherwise the candidate query followed by one
`cleanupCandidateStep` per candidate. -/
def cleanupPhase (cfg : FilterConfig) (api : String → LookupResult) (now : Nat)
    (validIds : List String) (db : DB) : CleanupState :=
  if validIds.length > 0 then
    (cleanupCandidates now validIds db).foldl (cleanupCandidateStep cfg api now)
      ⟨db, validIds, 0⟩
  else
    ⟨db, validIds, 0⟩

/-! ### Image Pipeline (`SyncService.downloadImage`, `downloadAllImages`) -/

/-- Result shape of `downloadImage`. -/
structure DownloadResult where
  success : Bool
  message : String
  imageId : Option Nat
deriving DecidableEq, Repr

/-- Pipeline state: the store plus the observable effects of the run
(files written, network GETs issued). -/
structure SyncState where
  db : DB
  files : List String
  downloads : List String
deriving DecidableEq, Repr

/-- Replace the first occurrence of `pat` in a character list. -/
def replaceFirstAux (pat repl : List Char) : List Char → List Char
  | [] => []
  | c :: rest =>
    if pat.isPrefixOf (c :: rest) then repl ++ (c :: rest).drop pat.length
    else c :: replaceFirstAux pat repl rest

/-- JS `s.replace(pat, repl)` with a string pattern: first occurrence
only. -/
def replaceFirst (s pat repl : String) : String :=
  ⟨replaceFirstAux pat.data repl.data s.data⟩

/-- `urlParts[urlParts.length - 1]` of `highResUrl.split('/')`: the suffix
after the last slash. -/
def lastUrlPart (s : String) : String :=
  ⟨((s.data.reverse.takeWhile (fun c => c ≠ '/'))).reverse⟩

/-- `DELETE FROM pending_images WHERE vehicle_id = ? AND image_url = ?`. -/
def deletePending (db : DB) (vehicleId : Nat) (imageUrl : String) : DB :=
  { db with pending_images := db.pending_images.filter (fun p =>
      !(p.vehicle_id == vehicleId && p.image_url == imageUrl)) }

/-- The storage path of a downloaded image (sync-service.ts lines
521-540): the high-resolution URL's last segment inside the
vehicle-scoped directory, with a timestamped fallback name. -/
def dlFilePath (imagesPath : String) (now : Nat) (imageUrl : String)
    (vehicleId : Nat) : String :=
  let highResUrl := replaceFirst imageUrl "/th-" "/"
  let lastPart := lastUrlPart highResUrl
  let filename := if lastPart ≠ "" then lastPart
    else "image-" ++ toString now ++ ".jpg"
  imagesPath ++ "/autos/" ++ toString vehicleId ++ "/" ++ filename

/-- The INSERT of the image row followed by the first-image featured
assignment (sync-service.ts lines 544-561): the row is inserted with the
schema defaults (`is_featured = 0`, `sort_order = 0`); when it is the only
row of the vehicle, the vehicle's `featured_image_id` is pointed at it. -/
def dlFeatured (db : DB) (vehicleId : Nat) (imageUrl : String) (filePath : String) : DB :=
  let imageId := db.nextImageId
  let dbIns := { db with
    vehicle_images := db.vehicle_images ++
      [⟨imageId, vehicleId, imageUrl, some filePath, false, 0⟩],
    nextImageId := imageId + 1 }
  let count := (dbIns.vehicle_images.filter (fun r => r.vehicle_id == vehicleId)).length
  if count == 1 then
    updateVehicles dbIns (fun r => r.id == vehicleId) (fun r =>
      { r with featured_image_id := some imageId })
  else dbIns

/-- `SyncService.downloadImage` (sync-service.ts lines 496-578).
`net` is the external HTTP GET (`none` = the request throws), `imagesPath`
the configured storage root, `now` the clock used for the fallback
filename. The catch branch of the source only logs and returns a failure
result: the state at the throw point is kept. -/
def downloadImage (net : String → Option String) (imagesPath : String) (now : Nat)
    (st : SyncState) (imageUrl : String) (vehicleId : Nat) : DownloadResult × SyncState :=
  match st.db.vehicle_images.find? (fun r =>
      r.vehicle_id == vehicleId && r.image_url == imageUrl) with
  | some row =>
    (⟨true, "Imagen ya existe para vehículo " ++ toString vehicleId, some row.id⟩,
     { st with db := deletePending st.db vehicleId imageUrl })
  | none =>
    let highResUrl := replaceFirst imageUrl "/th-" "/"
    let st1 := { st with downloads := st.downloads ++ [highResUrl] }
    match net highResUrl with
    | none =>
      (⟨false, "Error: download failed", none⟩, st1)
    | some _data =>
      let filePath := dlFilePath imagesPath now imageUrl vehicleId
      let st2 := { st1 with files := st1.files ++ [filePath] }
      let imageId := st2.db.nextImageId
      let dbFeat := dlFeatured st2.db vehicleId imageUrl filePath
      let dbDel := deletePending dbFeat vehicleId imageUrl
      (⟨true, "Imagen descargada para vehículo " ++ toString vehicleId, some imageId⟩,
       { st2 with db := dbDel })

/-- `SyncService.getPendingImages`:
`SELECT vehicle_id, image_url FROM pending_images ORDER BY id`. -/
def getPendingImages (db : DB) : List (Nat × String) :=
  db.pending_images.map (fun p => (p.vehicle_id, p.image_url))

/-- `SyncService.downloadAllImages`: drain the snapshot of the pending
queue through `downloadImage`, counting processed/created/errors. -/
def downloadAllImages (net : String → Option String) (imagesPath : String) (now : Nat)
    (st : SyncState) : (Nat × Nat × Nat) × SyncState :=
  (getPendingImages st.db).foldl (fun acc job =>
    let (res, st') := downloadImage net imagesPath now acc.2 job.2 job.1
    if res.success then
      ((acc.1.1 + 1, (if res.imageId.isSome then acc.1.2.1 + 1 else acc.1.2.1), acc.1.2.2),
       st')
    else
      ((acc.1.1, acc.1.2.1, acc.1.2.2 + 1), st'))
    ((0, 0, 0), st)

/-! ### Invariants and concrete fixtures -/

/-- The featured-image invariant of §3: per vehicle at most one
`vehicle_images` row with `is_featured = true`, and such a row is the one
referenced by the vehicle's `featured_image_id`. -/
def FeaturedInv (db : DB) : Prop :=
  ∀ vrow ∈ db.vehicles,
    ((db.vehicle_images.filter (fun r =>
        r.vehicle_id == vrow.id && r.is_featured)).length ≤ 1)
    ∧ ∀ irow ∈ db.vehicle_images,
        irow.vehicle_id = vrow.id → irow.is_featured = true →
          vrow.featured_image_id = some irow.id

/-- The production filter configuration (defaults of `config/filters.ts`:
blocked office "Dakota", minimum price 1, blocked status "reservado",
images required). -/
def cfgX : FilterConfig := ⟨["Dakota"], 1, ["reservado"], true⟩

/-- A stock entry with active status. -/
def stockA : Stock := ⟨some "Activo", some "Central Branch", some "Central"⟩

/-- An admissible external record. -/
def vGood : AsofixVehicle :=
  { id := "A1", brand_name := some "Toyota", model_name := some "Corolla",
    version := some "XEI", description := some "desc", year := some 2020,
    kilometres := some 50000, license_plate := some "ABC123", origin := none,
    car_condition := some "used", car_transmission := some "Manual",
    car_fuel_type := some "Nafta", car_segment := some "Sedan",
    price := some ⟨some 5000, some "Dolar"⟩, colors := [⟨some "Rojo"⟩],
    stocks := [stockA],
    images := [⟨some "http://h/th-a.jpg"⟩, ⟨some "http://h/th-b.jpg"⟩] }

/-- The record of `vGood` with its active stock turned into a blocked
(reservado-like) one: no stock entry is ACTIVO any more. -/
def vBlocked : AsofixVehicle := { vGood with stocks := [⟨some "RESERVADO", none, none⟩] }

/-- A concrete fingerprint digest. -/
def digest0 : RelevantData → String := fun _ => "h"

/-- An archived local row for `vGood` whose stored hash matches. -/
def row0 : VehicleRow :=
  { id := 1, asofix_id := "A1", title := "t", content := "c", status := "archived",
    year := some 2020, kilometres := 50000, license_plate := some "ABC123",
    price_usd := some 5000, price_ars := none, featured_image_id := none,
    created_at := 0, updated_at := some 0, last_synced_at := some 0,
    asofix_updated_at := some 0, version_hash := some (digest0 (relevantData vGood)),
    additional_data := default }

/-- A store holding only `row0`. -/
def db0 : DB := ⟨[row0], [], [], [], [], 2, 1, 1, 1⟩

/-- The published variant of `row0`. -/
def rowPub : VehicleRow := { row0 with status := "published" }

/-- A store holding the published row and one of its image rows. -/
def dbPub : DB := ⟨[rowPub], [⟨1, 1, "u", some "p", false, 0⟩], [], [], [], 2, 2, 1, 1⟩

/-- Pipeline state for the failed-download scenario: one pending row for
vehicle 1, no image rows. -/
def st7 : SyncState :=
  ⟨{ dbPub with pending_images := [⟨1, 1, "px"⟩], vehicle_images := [] }, [], []⟩

/-- Pipeline state with the same URL enqueued twice for vehicle 1. -/
def st8 : SyncState :=
  ⟨{ dbPub with pending_images := [⟨1, 1, "px"⟩, ⟨2, 1, "px"⟩], vehicle_images := [] },
   [], []⟩

/-- A stale published cleanup candidate (updated at time 0). -/
def candRow : VehicleRow := { rowPub with updated_at := some 0 }

/-- Cleanup state holding only the candidate, tracker non-empty. -/
def stC : CleanupState := ⟨{ dbPub with vehicles := [candRow] }, ["other"], 0⟩

/-- The candidate with the `keep_published` flag set in its
`additional_data`. -/
def candKeep : VehicleRow :=
  { candRow with additional_data :=
      { candRow.additional_data with keep_published := true } }

/-- Cleanup state holding only the keep-published candidate. -/
def stK : CleanupState := ⟨{ dbPub with vehicles := [candKeep] }, ["other"], 0⟩

/-- A failed process result, as returned by the catch-all of
`processVehicle`. -/
def failResult : ProcessResult := ⟨false, "Error: boom", none, false, false, false⟩

/-! ## Helper lemmas -/

/-- Sorting with `insertionSort` is invariant under permutation of the
input: both outputs are sorted and mutually permutable. -/
theorem insertionSort_perm_eq {l₁ l₂ : List String} (h : l₁.Perm l₂) :
    l₁.insertionSort (· ≤ ·) = l₂.insertionSort (· ≤ ·) :=
  List.eq_of_perm_of_sorted
    ((List.perm_insertionSort _ l₁).trans (h.trans (List.perm_insertionSort _ l₂).symm))
    (List.sorted_insertionSort _ l₁) (List.sorted_insertionSort _ l₂)

/-- `Set.add` puts its argument in the set. -/
theorem mem_setAdd_self (l : List String) (x : String) : x ∈ setAdd l x := by
  unfold setAdd
  split
  next h => exact List.mem_of_elem_eq_true h
  next h => exact List.mem_append_right _ (List.mem_singleton_self x)

/-- After the targeted DELETE, no pending row of the pair is left. -/
theorem filter_deletePending (db : DB) (vid : Nat) (url : String) :
    ((deletePending db vid url).pending_images.filter
      (fun p => p.vehicle_id == vid && p.image_url == url)) = [] := by
  unfold deletePending
  simp only [List.filter_filter]
  rw [List.filter_eq_nil_iff]
  intro p _
  cases h : (p.vehicle_id == vid && p.image_url == url) <;> simp [h]

/-! ## Claim theorems -/

/-- C2: when the Valid-Set Tracker is empty at the start of the cleanup
phase of `syncAll`, the phase is skipped outright: the store is returned
untouched (no vehicle archived), the tracker unchanged and the archived
counter zero. -/
theorem cleanupPhase_empty_tracker_noop (cfg : FilterConfig)
    (api : String → LookupResult) (now : Nat) (db : DB) :
    cleanupPhase cfg api now [] db = ⟨db, [], 0⟩ := rfl

/-- C5: the Version Fingerprint is invariant under permutation of the
record's images array, for every digest function: the image URLs are
sorted (after the map/filter projection) before being hashed. -/
theorem generateVersionHash_perm_invariant (digest : RelevantData → String)
    (v : AsofixVehicle) (imgs : List Image) (h : imgs.Perm v.images) :
    generateVersionHash digest { v with images := imgs } =
      generateVersionHash digest v := by
  unfold generateVersionHash
  congr 1
  have hs : sortedImageUrls { v with images := imgs } = sortedImageUrls v := by
    unfold sortedImageUrls imageUrlsOf
    exact insertionSort_perm_eq ((h.map _).filter _)
  unfold relevantData
  rw [hs]
  rfl

/-- Witness for C5: a two-image record with its images swapped, under a
digest that depends on the URL list. -/
theorem generateVersionHash_perm_invariant_witness :
    ([⟨some "http://h/th-b.jpg"⟩, ⟨some "http://h/th-a.jpg"⟩] : List Image).Perm
      vGood.images
    ∧ generateVersionHash (fun rd => String.intercalate "|" rd.images_urls)
        { vGood with images := [⟨some "http://h/th-b.jpg"⟩, ⟨some "http://h/th-a.jpg"⟩] } =
      generateVersionHash (fun rd => String.intercalate "|" rd.images_urls) vGood :=
  ⟨by decide, generateVersionHash_perm_invariant _ vGood _ (by decide)⟩

/-- C7 (amended): `downloadImage` removes the `(vehicle, URL)` pending
rows on each successful terminal outcome (already-satisfied or downloaded),
but on a terminal download failure the catch branch returns without
touching the store: the pending row is retained for the next run. -/
theorem downloadImage_pending_terminal (net : String → Option String)
    (imagesPath : String) (now : Nat) (st : SyncState) (imageUrl : String)
    (vehicleId : Nat) :
    ((downloadImage net imagesPath now st imageUrl vehicleId).1.success = true →
      ((downloadImage net imagesPath now st imageUrl vehicleId).2.db.pending_images.filter
        (fun p => p.vehicle_id == vehicleId && p.image_url == imageUrl)) = [])
    ∧ ((downloadImage net imagesPath now st imageUrl vehicleId).1.success = false →
      (downloadImage net imagesPath now st imageUrl vehicleId).2.db = st.db) := by
  unfold downloadImage
  cases hex : st.db.vehicle_images.find? (fun r =>
      r.vehicle_id == vehicleId && r.image_url == imageUrl) with
  | some row =>
    refine ⟨fun _ => ?_, fun hfail => by simp at hfail⟩
    simpa using filter_deletePending st.db vehicleId imageUrl
  | none =>
    cases hnet : net (replaceFirst imageUrl "/th-" "/") with
    | none => exact ⟨fun hsucc => by simp [hnet] at hsucc, fun _ => by simp [hnet]⟩
    | some data =>
      refine ⟨fun _ => ?_, fun hfail => by simp [hnet] at hfail⟩
      simp only [hnet]
      simpa using filter_deletePending _ vehicleId imageUrl

/-- Witness for C7: the already-exists outcome removes the pending row;
the failed-download outcome leaves the store untouched. -/
theorem downloadImage_pending_terminal_witness :
    (((downloadImage (fun _ => some "d") "/img" 9
        ⟨dbPub, [], []⟩ "u" 1).1.success = true →
      (((downloadImage (fun _ => some "d") "/img" 9
          ⟨dbPub, [], []⟩ "u" 1).2.db.pending_images.filter
        (fun p => p.vehicle_id == 1 && p.image_url == "u")) = []))
    ∧ ((downloadImage (fun _ => none) "/img" 9 st7 "px" 1).1.success = false →
      (downloadImage (fun _ => none) "/img" 9 st7 "px" 1).2.db = st7.db)) :=
  ⟨(downloadImage_pending_terminal (fun _ => some "d") "/img" 9
      ⟨dbPub, [], []⟩ "u" 1).1,
   (downloadImage_pending_terminal (fun _ => none) "/img" 9 st7 "px" 1).2⟩

/-- Counterexample for C7 as stated: a pending entry whose download fails
terminally is NOT deleted — the failed call leaves the pending row in the
queue. -/
theorem downloadImage_pending_kept_on_failure_counterexample :
    (downloadImage (fun _ => none) "/img" 9 st7 "px" 1).1.success = false
    ∧ (downloadImage (fun _ => none) "/img" 9 st7 "px" 1).2.db.pending_images
        = [⟨1, 1, "px"⟩] := by
  constructor <;> rfl

/-- On a returned failure result, the batch loop's tracker logic inserts
the id of an admissible record. -/
theorem mem_trackerAfterResult_of_failure (cfg : FilterConfig) (v : AsofixVehicle)
    (r : ProcessResult) (valid : List String)
    (hfail : r.success = false)
    (hadm : (shouldOmitVehicle cfg v).omit = false)
    (hid : idUsable (asofixIdOf v) = true) :
    asofixIdOf v ∈ trackerAfterResult cfg v r valid := by
  simp [trackerAfterResult, hfail, hadm, hid, mem_setAdd_self]

/-- Generalisation of C4 over the retry counter. -/
theorem runRecordLoop_adds_on_failure (cfg : FilterConfig) (v : AsofixVehicle)
    (hadm : (shouldOmitVehicle cfg v).omit = false)
    (hid : idUsable (asofixIdOf v) = true) :
    ∀ (attempts : List Attempt) (retryCount : Nat) (valid : List String),
      (∀ r, (runRecordLoop cfg v attempts retryCount valid).1 = .finished r →
          r.success = false →
          asofixIdOf v ∈ (runRecordLoop cfg v attempts retryCount valid).2)
      ∧ ((runRecordLoop cfg v attempts retryCount valid).1 = .exhausted →
          asofixIdOf v ∈ (runRecordLoop cfg v attempts retryCount valid).2) := by
  intro attempts
  induction attempts with
  | nil =>
    intro rc valid
    exact ⟨fun r h => by simp [runRecordLoop] at h, fun h => by simp [runRecordLoop] at h⟩
  | cons a rest ih =>
    intro rc valid
    cases a with
    | ret r0 =>
      refine ⟨fun r h hfail => ?_, fun h => ?_⟩
      · simp only [runRecordLoop, RecordOutcome.finished.injEq] at h
        subst h
        exact mem_trackerAfterResult_of_failure cfg v _ valid hfail hadm hid
      · simp [runRecordLoop] at h
    | thrown m =>
      by_cases hrc : rc + 1 ≥ maxRetries
      · refine ⟨fun r h hfail => ?_, fun _ => ?_⟩
        · simp [runRecordLoop, hrc] at h
        · simp only [runRecordLoop, hrc, if_pos, hadm, hid, Bool.not_false, Bool.true_and]
          simpa using mem_setAdd_self valid (asofixIdOf v)
      · simpa [runRecordLoop, hrc] using ih (rc + 1) valid

/-- C4: when a record's processing fails terminally in the reconcile batch
— either `processVehicle` returned `success=false`, or it threw until the
retry ceiling was exhausted — but the Filter Evaluator judges the record
admissible and its external id is known, the id is still added to the
run's Valid-Set Tracker. -/
theorem record_failure_keeps_admissible_in_tracker (cfg : FilterConfig)
    (v : AsofixVehicle) (attempts : List Attempt) (valid : List String)
    (hadm : (shouldOmitVehicle cfg v).omit = false)
    (hid : idUsable (asofixIdOf v) = true) :
    (∀ r, (runRecord cfg v attempts valid).1 = .finished r → r.success = false →
      asofixIdOf v ∈ (runRecord cfg v attempts valid).2)
    ∧ ((runRecord cfg v attempts valid).1 = .exhausted →
      asofixIdOf v ∈ (runRecord cfg v attempts valid).2) :=
  runRecordLoop_adds_on_failure cfg v hadm hid attempts 0 valid

/-- Witness for C4: an admissible record whose single attempt returns a
failure result ends up in the tracker anyway; so does one that throws
three times. -/
theorem record_failure_keeps_admissible_in_tracker_witness :
    ((shouldOmitVehicle cfgX vGood).omit = false
    ∧ idUsable (asofixIdOf vGood) = true)
    ∧ asofixIdOf vGood ∈ (runRecord cfgX vGood [.ret failResult] []).2
    ∧ asofixIdOf vGood ∈
        (runRecord cfgX vGood [.thrown "a", .thrown "b", .thrown "c"] []).2 :=
  ⟨⟨by decide, by decide⟩,
   (record_failure_keeps_admissible_in_tracker cfgX vGood [.ret failResult] []
      (by decide) (by decide)).1 failResult rfl rfl,
   (record_failure_keeps_admissible_in_tracker cfgX vGood
      [.thrown "a", .thrown "b", .thrown "c"] [] (by decide) (by decide)).2 rfl⟩

/-- C3 (amended): for a cleanup candidate that carries a non-blank license
plate, does not carry the `keep_published` flag, and is past the 48-hour
grace re-check, the point lookup resolves it exactly as: found under the
candidate's own id and admissible ⇒ kept and added to the tracker; found
under its id but inadmissible ⇒ archived with the filtered-on-recheck
reason; found under a different id, or not found ⇒ archived with the
absent-from-feed reason; lookup throws ⇒ archived with the recheck-failed
reason. -/
theorem cleanupCandidateStep_resolution (cfg : FilterConfig)
    (api : String → LookupResult) (now : Nat) (st : CleanupState)
    (cand fresh : VehicleRow) (p : String)
    (hfresh : st.db.vehicles.find? (fun r => r.id == cand.id) = some fresh)
    (hkp : fresh.additional_data.keep_published = false)
    (hplate : fresh.license_plate = some p)
    (hp : (jsTrim p).length > 0)
    (hstale : (match cand.updated_at with
      | none => false
      | some u => decide (((now : Int) - (u : Int)) < 48 * 3600000)) = false) :
    (∀ apiV, api p = .found apiV → apiV.id = cand.asofix_id →
      (shouldOmitVehicle cfg apiV).omit = false →
      cleanupCandidateStep cfg api now st cand =
        { st with validIds := setAdd st.validIds cand.asofix_id })
    ∧ (∀ apiV, api p = .found apiV → apiV.id = cand.asofix_id →
      (shouldOmitVehicle cfg apiV).omit = true →
      cleanupCandidateStep cfg api now st cand =
        cleanupArchive now st cand
          ("filtrado_en_api: " ++ ((shouldOmitVehicle cfg apiV).reason.getD "")))
    ∧ (∀ apiV, api p = .found apiV → apiV.id ≠ cand.asofix_id →
      cleanupCandidateStep cfg api now st cand =
        cleanupArchive now st cand "no_encontrado_en_api")
    ∧ (api p = .notFound →
      cleanupCandidateStep cfg api now st cand =
        cleanupArchive now st cand "no_encontrado_en_api")
    ∧ (∀ m, api p = .err m →
      cleanupCandidateStep cfg api now st cand =
        cleanupArchive now st cand ("error_consulta_api: " ++ m)) := by
  have hrec : (match cand.updated_at with
      | none => false
      | some u => decide (((now : Int) - (u : Int)) < 172800000)) = false := by
    simpa using hstale
  refine ⟨?_, ?_, ?_, ?_, ?_⟩
  · intro apiV hapi hid homit
    simp [cleanupCandidateStep, hfresh, hkp, hplate, hrec, hp, hapi, hid, homit]
  · intro apiV hapi hid homit
    simp [cleanupCandidateStep, hfresh, hkp, hplate, hrec, hp, hapi, hid, homit]
  · intro apiV hapi hid
    simp [cleanupCandidateStep, hfresh, hkp, hplate, hrec, hp, hapi, hid]
  · intro hapi
    simp [cleanupCandidateStep, hfresh, hkp, hplate, hrec, hp, hapi]
  · intro m hapi
    simp [cleanupCandidateStep, hfresh, hkp, hplate, hrec, hp, hapi]

/-- Witness for C3: a stale, unflagged candidate with a non-blank plate
whose lookup returns null is archived with the absent-from-feed reason. -/
theorem cleanupCandidateStep_resolution_witness :
    (stC.db.vehicles.find? (fun r => r.id == candRow.id) = some candRow
      ∧ candRow.additional_data.keep_published = false
      ∧ candRow.license_plate = some "ABC123"
      ∧ (jsTrim "ABC123").length > 0)
    ∧ cleanupCandidateStep cfgX (fun _ => .notFound) (200 * 3600000) stC candRow =
        cleanupArchive (200 * 3600000) stC candRow "no_encontrado_en_api" :=
  ⟨⟨by decide, by decide, by decide, by decide⟩,
   (cleanupCandidateStep_resolution cfgX (fun _ => .notFound) (200 * 3600000)
      stC candRow candRow "ABC123" (by decide) (by decide) (by decide) (by decide)
      (by decide)).2.2.2.1 rfl⟩

/-- Counterexample for C3 as stated: a cleanup candidate (published, not in
the tracker, stale) carrying the `keep_published` flag is resolved WITHOUT
a point lookup: although the lookup would report it absent from the feed,
it is not archived — it is kept and its key added to the tracker. -/
theorem cleanup_keep_published_counterexample :
    cleanupCandidates (200 * 3600000) stK.validIds stK.db = [candKeep]
    ∧ ((cleanupCandidateStep cfgX (fun _ => .notFound) (200 * 3600000) stK
        candKeep).db.vehicles.map (·.status)) = ["published"]
    ∧ (cleanupCandidateStep cfgX (fun _ => .notFound) (200 * 3600000) stK
        candKeep).archived = 0
    ∧ (cleanupCandidateStep cfgX (fun _ => .notFound) (200 * 3600000) stK
        candKeep).validIds = ["other", "A1"] := by
  refine ⟨by decide, by decide, by decide, by decide⟩

/-- With unique row ids, the lookup by a member's id returns that member. -/
theorem find?_id_of_nodup {l : List VehicleRow} (hnd : (l.map (·.id)).Nodup)
    {r : VehicleRow} (hr : r ∈ l) :
    l.find? (fun x => x.id == r.id) = some r := by
  induction l with
  | nil => cases hr
  | cons a t iht =>
    have hnd' : (∀ x ∈ t, ¬ x.id = a.id) ∧ (t.map (fun x => x.id)).Nodup := by
      simpa using hnd
    rcases List.mem_cons.mp hr with h | h
    · subst h
      simp [List.find?_cons_of_pos]
    · have ha : (a.id == r.id) = false := by
        have : ¬ r.id = a.id := hnd'.1 r h
        simpa using fun he => this he.symm
      rw [List.find?_cons_of_neg _ (by simp [ha])]
      exact iht hnd'.2 h

/-- C9 (amended): when an existing vehicle's record is rejected by the
Filter Evaluator, `processVehicle` archives it: status becomes archived,
the `filter_reason` bucket derived from the evaluator's reason string is
merged into `additional_data`, and `updated_at` is refreshed; every other
column of the row, every other row, and the `vehicle_images`,
`pending_images` and taxonomy tables (and hence the stored image files,
which `processVehicle` never touches) are unchanged. -/
theorem processVehicle_archive_transition (cfg : FilterConfig)
    (digest : RelevantData → String) (now : Nat) (incremental : Bool)
    (v : AsofixVehicle) (db : DB) (row : VehicleRow)
    (hne : (v.id == "") = false)
    (homit : (shouldOmitVehicle cfg v).omit = true)
    (hfind : db.vehicles.find? (fun r => r.asofix_id == v.id) = some row) :
    processVehicle cfg digest now incremental v db =
      (⟨true, "FILTRADO: " ++ ((shouldOmitVehicle cfg v).reason.getD ""), none,
        false, false, true⟩,
       { db with vehicles := db.vehicles.map (fun r =>
           if r.id == row.id then
             { r with status := "archived",
                      additional_data := { r.additional_data with
                        filter_reason :=
                          some (deriveFilterReason (shouldOmitVehicle cfg v).reason) },
                      updated_at := some now }
           else r) }) := by
  unfold processVehicle
  simp [hne, homit, findVehicleByAsofixId, hfind, updateVehicles]

/-- Witness for C9: the published `vGood` vehicle re-synced with a blocked
stock status is archived with the `no_active_stock` bucket while its image
row survives. -/
theorem processVehicle_archive_transition_witness :
    ((vBlocked.id == "") = false
      ∧ (shouldOmitVehicle cfgX vBlocked).omit = true
      ∧ dbPub.vehicles.find? (fun r => r.asofix_id == vBlocked.id) = some rowPub)
    ∧ processVehicle cfgX digest0 5 false vBlocked dbPub =
      (⟨true, "FILTRADO: " ++ ((shouldOmitVehicle cfgX vBlocked).reason.getD ""), none,
        false, false, true⟩,
       { dbPub with vehicles := dbPub.vehicles.map (fun r =>
           if r.id == rowPub.id then
             { r with status := "archived",
                      additional_data := { r.additional_data with
                        filter_reason :=
                          some (deriveFilterReason (shouldOmitVehicle cfgX vBlocked).reason) },
                      updated_at := some 5 }
           else r) }) :=
  ⟨⟨by decide, by decide, by decide⟩,
   processVehicle_archive_transition cfgX digest0 5 false vBlocked dbPub rowPub
     (by decide) (by decide) (by decide)⟩

/-- Counterexample for C9 as stated: the archive transition does NOT leave
every other column unchanged — `updated_at` is refreshed to the archive
time (0 before, 5 after), alongside status and the reason bucket. -/
theorem processVehicle_archive_updatedAt_counterexample :
    (shouldOmitVehicle cfgX vBlocked).omit = true
    ∧ dbPub.vehicles.map (·.updated_at) = [some 0]
    ∧ ((processVehicle cfgX digest0 5 false vBlocked dbPub).2.vehicles.map
        (·.updated_at)) = [some 5]
    ∧ ((processVehicle cfgX digest0 5 false vBlocked dbPub).2.vehicles.map
        (·.status)) = ["archived"]
    ∧ ((processVehicle cfgX digest0 5 false vBlocked dbPub).2.vehicle_images)
        = dbPub.vehicle_images := by
  refine ⟨by decide, by decide, by decide, by decide, by decide⟩

/-- C6 (amended): re-running `processVehicle` in incremental mode on an
admissible record whose computed fingerprint equals the stored
`version_hash`, when the stored row is not archived, performs no write
beyond refreshing `last_synced_at` on the record's row: title, content,
status, prices, `additional_data`, the taxonomy tables, `vehicle_images`
and `pending_images` are all unchanged; the record is reported as
unchanged (`success`, not filtered, not new, not updated) and its id still
enters the Valid-Set Tracker. -/
theorem processVehicle_unchanged_skip (cfg : FilterConfig)
    (digest : RelevantData → String) (now : Nat) (v : AsofixVehicle) (db : DB)
    (row : VehicleRow) (valid : List String)
    (hnd : (db.vehicles.map (·.id)).Nodup)
    (hne : (v.id == "") = false)
    (hid2 : idUsable v.id = true)
    (hadm : (shouldOmitVehicle cfg v).omit = false)
    (hfind : db.vehicles.find? (fun r => r.asofix_id == v.id) = some row)
    (hhash : row.version_hash = some (generateVersionHash digest v))
    (hstat : (row.status == "archived") = false) :
    processVehicle cfg digest now true v db =
      (⟨true, "Sin cambios para " ++ v.id, none, false, false, false⟩,
       { db with vehicles := db.vehicles.map (fun r =>
           if r.asofix_id == v.id then { r with last_synced_at := some now }
           else r) })
    ∧ v.id ∈ trackerAfterResult cfg v (processVehicle cfg digest now true v db).1 valid := by
  have hmem : row ∈ db.vehicles := List.mem_of_find?_eq_some hfind
  have hrowid : db.vehicles.find? (fun x => x.id == row.id) = some row :=
    find?_id_of_nodup hnd hmem
  have hneeds : needsUpdate db v.id (generateVersionHash digest v) = false := by
    unfold needsUpdate
    rw [hfind]
    simp [hhash]
  have hmain : processVehicle cfg digest now true v db =
      (⟨true, "Sin cambios para " ++ v.id, none, false, false, false⟩,
       { db with vehicles := db.vehicles.map (fun r =>
           if r.asofix_id == v.id then { r with last_synced_at := some now }
           else r) }) := by
    unfold processVehicle
    simp [hne, hadm, findVehicleByAsofixId, hfind, hrowid, hstat, hneeds,
      updateVehicles]
  refine ⟨hmain, ?_⟩
  rw [hmain]
  have hid3 : asofixIdOf v = v.id := by
    unfold asofixIdOf
    simp [hne]
  simp [trackerAfterResult, hid3, hid2, jsIncludes, mem_setAdd_self]

/-- Witness for C6: the published row of `vGood` with the matching stored
hash goes through the skip path untouched except for `last_synced_at`. -/
theorem processVehicle_unchanged_skip_witness :
    ((shouldOmitVehicle cfgX vGood).omit = false
      ∧ rowPub.version_hash = some (generateVersionHash digest0 vGood)
      ∧ (rowPub.status == "archived") = false)
    ∧ processVehicle cfgX digest0 7 true vGood dbPub =
      (⟨true, "Sin cambios para " ++ vGood.id, none, false, false, false⟩,
       { dbPub with vehicles := dbPub.vehicles.map (fun r =>
           if r.asofix_id == vGood.id then { r with last_synced_at := some 7 }
           else r) })
    ∧ vGood.id ∈ trackerAfterResult cfgX vGood
        (processVehicle cfgX digest0 7 true vGood dbPub).1 [] :=
  ⟨⟨by decide, by decide, by decide⟩,
   (processVehicle_unchanged_skip cfgX digest0 7 vGood dbPub rowPub []
      (by decide) (by decide) (by decide) (by decide) (by decide) (by decide)
      (by decide)).1,
   (processVehicle_unchanged_skip cfgX digest0 7 vGood dbPub rowPub []
      (by decide) (by decide) (by decide) (by decide) (by decide) (by decide)
      (by decide)).2⟩

/-- Counterexample for C6 as stated: an ARCHIVED row whose record is
admissible and whose fingerprint matches is reactivated before the
incremental check — the skip run changes `status` to published (and
refreshes `updated_at`), so the claim's "status unchanged" fails without
the not-archived proviso. -/
theorem processVehicle_skip_reactivates_archived_counterexample :
    (shouldOmitVehicle cfgX vGood).omit = false
    ∧ row0.version_hash = some (generateVersionHash digest0 vGood)
    ∧ db0.vehicles.map (·.status) = ["archived"]
    ∧ ((processVehicle cfgX digest0 5 true vGood db0).1.message)
        = "Sin cambios para A1"
    ∧ ((processVehicle cfgX digest0 5 true vGood db0).2.vehicles.map (·.status))
        = ["published"] := by
  refine ⟨by decide, by decide, by decide, by decide, by decide⟩

/-- The fully evaluated success-path state of `downloadImage`. -/
theorem downloadImage_success_eq (net : String → Option String)
    (imagesPath : String) (now : Nat) (st : SyncState) (imageUrl : String)
    (vehicleId : Nat) (data : String)
    (hex : st.db.vehicle_images.find? (fun r =>
        r.vehicle_id == vehicleId && r.image_url == imageUrl) = none)
    (hnet : net (replaceFirst imageUrl "/th-" "/") = some data) :
    downloadImage net imagesPath now st imageUrl vehicleId =
      (⟨true, "Imagen descargada para vehículo " ++ toString vehicleId,
        some st.db.nextImageId⟩,
       { db := deletePending
           (dlFeatured st.db vehicleId imageUrl
             (dlFilePath imagesPath now imageUrl vehicleId))
           vehicleId imageUrl,
         files := st.files ++ [dlFilePath imagesPath now imageUrl vehicleId],
         downloads := st.downloads ++ [replaceFirst imageUrl "/th-" "/"] }) := by
  unfold downloadImage
  rw [hex]
  simp only [hnet]

/-- The fully evaluated already-exists-path state of `downloadImage`. -/
theorem downloadImage_exists_eq (net : String → Option String)
    (imagesPath : String) (now : Nat) (st : SyncState) (imageUrl : String)
    (vehicleId : Nat) (row : ImageRow)
    (hrow : st.db.vehicle_images.find? (fun r =>
        r.vehicle_id == vehicleId && r.image_url == imageUrl) = some row) :
    downloadImage net imagesPath now st imageUrl vehicleId =
      (⟨true, "Imagen ya existe para vehículo " ++ toString vehicleId, some row.id⟩,
       { st with db := deletePending st.db vehicleId imageUrl }) := by
  unfold downloadImage
  rw [hrow]

/-- `dlFeatured` only inserts into `vehicle_images` (the featured branch
touches `vehicles` only). -/
theorem dlFeatured_images (db : DB) (vid : Nat) (url fp : String) :
    (dlFeatured db vid url fp).vehicle_images =
      db.vehicle_images ++ [⟨db.nextImageId, vid, url, some fp, false, 0⟩] := by
  simp only [dlFeatured]
  split <;> rfl

/-- `dlFeatured` leaves the pending queue alone. -/
theorem dlFeatured_pending (db : DB) (vid : Nat) (url fp : String) :
    (dlFeatured db vid url fp).pending_images = db.pending_images := by
  simp only [dlFeatured]
  split <;> rfl

/-- C8: the already-exists branch of `downloadImage` performs no network
call and no insert, removes the pending rows of the pair and reports
success; consequently enqueuing the same URL twice for a vehicle and
draining the pipeline twice yields exactly one `vehicle_images` row, one
network GET, and an empty queue. -/
theorem image_pipeline_idempotence (net : String → Option String)
    (imagesPath : String) (now : Nat) :
    (∀ (st : SyncState) (imageUrl : String) (vehicleId : Nat) (row : ImageRow),
      st.db.vehicle_images.find? (fun r =>
          r.vehicle_id == vehicleId && r.image_url == imageUrl) = some row →
      downloadImage net imagesPath now st imageUrl vehicleId =
        (⟨true, "Imagen ya existe para vehículo " ++ toString vehicleId, some row.id⟩,
         { st with db := deletePending st.db vehicleId imageUrl }))
    ∧ (∀ (st : SyncState) (url : String) (vid i1 i2 : Nat) (c : String),
      st.db.vehicle_images = [] →
      st.db.pending_images = [⟨i1, vid, url⟩, ⟨i2, vid, url⟩] →
      net (replaceFirst url "/th-" "/") = some c →
      ((downloadAllImages net imagesPath now
          (downloadAllImages net imagesPath now st).2).2.db.vehicle_images.map
        (fun r => (r.vehicle_id, r.image_url))) = [(vid, url)]
      ∧ (downloadAllImages net imagesPath now
          (downloadAllImages net imagesPath now st).2).2.downloads
          = st.downloads ++ [replaceFirst url "/th-" "/"]
      ∧ (downloadAllImages net imagesPath now
          (downloadAllImages net imagesPath now st).2).2.db.pending_images = []) := by
  constructor
  · intro st imageUrl vehicleId row hrow
    exact downloadImage_exists_eq net imagesPath now st imageUrl vehicleId row hrow
  · intro st url vid i1 i2 c himg hpend hnet
    have hex1 : st.db.vehicle_images.find? (fun r =>
        r.vehicle_id == vid && r.image_url == url) = none := by
      rw [himg]; rfl
    have h1 := downloadImage_success_eq net imagesPath now st url vid c hex1 hnet
    have hAimg : (deletePending (dlFeatured st.db vid url
          (dlFilePath imagesPath now url vid)) vid url).vehicle_images =
        [⟨st.db.nextImageId, vid, url,
          some (dlFilePath imagesPath now url vid), false, 0⟩] := by
      show (dlFeatured st.db vid url (dlFilePath imagesPath now url vid)).vehicle_images = _
      rw [dlFeatured_images, himg]
      rfl
    have hApend : (deletePending (dlFeatured st.db vid url
          (dlFilePath imagesPath now url vid)) vid url).pending_images = [] := by
      show ((dlFeatured st.db vid url
          (dlFilePath imagesPath now url vid)).pending_images.filter _) = []
      rw [dlFeatured_pending, hpend]
      simp
    have hfind2 : (deletePending (dlFeatured st.db vid url
          (dlFilePath imagesPath now url vid)) vid url).vehicle_images.find?
        (fun r => r.vehicle_id == vid && r.image_url == url) =
        some ⟨st.db.nextImageId, vid, url,
          some (dlFilePath imagesPath now url vid), false, 0⟩ := by
      rw [hAimg]
      exact List.find?_cons_of_pos _ (by simp)
    have h2 := downloadImage_exists_eq net imagesPath now
      ⟨deletePending (dlFeatured st.db vid url (dlFilePath imagesPath now url vid)) vid url,
       st.files ++ [dlFilePath imagesPath now url vid],
       st.downloads ++ [replaceFirst url "/th-" "/"]⟩ url vid _ hfind2
    have hd1 : downloadAllImages net imagesPath now st =
        ((2, 2, 0),
         ⟨deletePending (deletePending (dlFeatured st.db vid url
             (dlFilePath imagesPath now url vid)) vid url) vid url,
          st.files ++ [dlFilePath imagesPath now url vid],
          st.downloads ++ [replaceFirst url "/th-" "/"]⟩) := by
      unfold downloadAllImages getPendingImages
      rw [hpend]
      simp only [List.map_cons, List.map_nil, List.foldl_cons, List.foldl_nil, h1, h2,
        Option.isSome_some, eq_self_iff_true, if_true]
    have hBpend : (deletePending (deletePending (dlFeatured st.db vid url
          (dlFilePath imagesPath now url vid)) vid url) vid url).pending_images = [] := by
      show ((deletePending (dlFeatured st.db vid url
          (dlFilePath imagesPath now url vid)) vid url).pending_images.filter _) = []
      rw [hApend]
      rfl
    have hd2 : downloadAllImages net imagesPath now
        (downloadAllImages net imagesPath now st).2 =
        (downloadAllImages net imagesPath now st |> fun x =>
          ((0, 0, 0), x.2)) := by
      rw [hd1]
      unfold downloadAllImages getPendingImages
      rw [hBpend]
      rfl
    rw [hd2, hd1]
    refine ⟨?_, rfl, ?_⟩
    · show ((deletePending (dlFeatured st.db vid url
          (dlFilePath imagesPath now url vid)) vid url).vehicle_images.map _) = _
      rw [hAimg]
      rfl
    · exact hBpend

/-- Witness for C8: the double-enqueued state `st8` drained twice ends
with one image row and one download; the already-exists branch applied to
a state that has the row. -/
theorem image_pipeline_idempotence_witness :
    (downloadImage (fun _ => some "d") "/img" 9 ⟨dbPub, [], []⟩ "u" 1 =
      (⟨true, "Imagen ya existe para vehículo " ++ toString 1, some 1⟩,
       { (⟨dbPub, [], []⟩ : SyncState) with db := deletePending dbPub 1 "u" }))
    ∧ ((downloadAllImages (fun _ => some "d") "/img" 9
          (downloadAllImages (fun _ => some "d") "/img" 9 st8).2).2.db.vehicle_images.map
        (fun r => (r.vehicle_id, r.image_url))) = [(1, "px")]
    ∧ (downloadAllImages (fun _ => some "d") "/img" 9
          (downloadAllImages (fun _ => some "d") "/img" 9 st8).2).2.downloads
        = st8.downloads ++ [replaceFirst "px" "/th-" "/"]
    ∧ (downloadAllImages (fun _ => some "d") "/img" 9
          (downloadAllImages (fun _ => some "d") "/img" 9 st8).2).2.db.pending_images
        = [] :=
  ⟨(image_pipeline_idempotence (fun _ => some "d") "/img" 9).1
      ⟨dbPub, [], []⟩ "u" 1 ⟨1, 1, "u", some "p", false, 0⟩ (by decide),
   ((image_pipeline_idempotence (fun _ => some "d") "/img" 9).2
      st8 "px" 1 1 2 "d" (by decide) (by decide) (by decide)).1,
   ((image_pipeline_idempotence (fun _ => some "d") "/img" 9).2
      st8 "px" 1 1 2 "d" (by decide) (by decide) (by decide)).2.1,
   ((image_pipeline_idempotence (fun _ => some "d") "/img" 9).2
      st8 "px" 1 1 2 "d" (by decide) (by decide) (by decide)).2.2⟩

/-- Inserting the non-featured image row and pointing
`featured_image_id` at it when it is the vehicle's only row preserves the
featured-image invariant. -/
theorem FeaturedInv_dlFeatured (db : DB) (vehicleId : Nat) (imageUrl fp : String)
    (hinv : FeaturedInv db) :
    FeaturedInv (dlFeatured db vehicleId imageUrl fp) := by
  simp only [dlFeatured]
  have himg : ∀ vid' : Nat,
      ((db.vehicle_images ++
          [(⟨db.nextImageId, vehicleId, imageUrl, some fp, false, 0⟩ : ImageRow)]).filter
          (fun r => r.vehicle_id == vid' && r.is_featured))
        = db.vehicle_images.filter (fun r => r.vehicle_id == vid' && r.is_featured) := by
    intro vid'
    rw [List.filter_append]
    simp
  have hfeat_mem : ∀ irow ∈ db.vehicle_images ++
        [(⟨db.nextImageId, vehicleId, imageUrl, some fp, false, 0⟩ : ImageRow)],
      irow.is_featured = true → irow ∈ db.vehicle_images := by
    intro irow hmem hf
    rcases List.mem_append.mp hmem with h | h
    · exact h
    · exfalso
      rw [List.mem_singleton.mp h] at hf
      cases hf
  split
  next hc =>
    intro vrow hvrow
    simp only [updateVehicles, List.mem_map] at hvrow
    rcases hvrow with ⟨w, hw, rfl⟩
    simp only [updateVehicles]
    have hgid : (if (w.id == vehicleId) = true then
        { w with featured_image_id := some db.nextImageId } else w).id = w.id := by
      split <;> rfl
    constructor
    · rw [hgid, himg w.id]
      exact (hinv w hw).1
    · intro irow hirow hvid hf
      have hiro : irow ∈ db.vehicle_images := hfeat_mem irow hirow hf
      rw [hgid] at hvid
      by_cases hwid : (w.id == vehicleId) = true
      · exfalso
        have hweq : w.id = vehicleId := by simpa using hwid
        have hfil : (db.vehicle_images ++
            [(⟨db.nextImageId, vehicleId, imageUrl, some fp, false, 0⟩ : ImageRow)]).filter
              (fun r => r.vehicle_id == vehicleId)
            = db.vehicle_images.filter (fun r => r.vehicle_id == vehicleId) ++
              [⟨db.nextImageId, vehicleId, imageUrl, some fp, false, 0⟩] := by
          rw [List.filter_append]
          simp
        rw [hfil] at hc
        have hlen : (db.vehicle_images.filter
            (fun r => r.vehicle_id == vehicleId)).length + 1 = 1 := by
          simpa using hc
        have hnil : db.vehicle_images.filter (fun r => r.vehicle_id == vehicleId) = [] :=
          List.eq_nil_of_length_eq_zero (by omega)
        have : irow ∈ db.vehicle_images.filter (fun r => r.vehicle_id == vehicleId) :=
          List.mem_filter.mpr ⟨hiro, by simp [hvid, hweq]⟩
        rw [hnil] at this
        cases this
      · simp only [hwid, if_false]
        exact (hinv w hw).2 irow hiro hvid hf
  next hc =>
    intro vrow hvrow
    constructor
    · rw [himg vrow.id]
      exact (hinv vrow hvrow).1
    · intro irow hirow hvid hf
      exact (hinv vrow hvrow).2 irow (hfeat_mem irow hirow hf) hvid hf

/-- When the vehicle had no image rows, `dlFeatured` leaves it with
exactly the inserted row and points `featured_image_id` at it. -/
theorem dlFeatured_first_image (db : DB) (vehicleId : Nat) (imageUrl fp : String)
    (hempty : db.vehicle_images.filter (fun r => r.vehicle_id == vehicleId) = []) :
    (((dlFeatured db vehicleId imageUrl fp).vehicle_images.filter
        (fun r => r.vehicle_id == vehicleId)).map
      (fun r => (r.id, r.image_url, r.is_featured)))
      = [(db.nextImageId, imageUrl, false)]
    ∧ ∀ vrow ∈ (dlFeatured db vehicleId imageUrl fp).vehicles,
        vrow.id = vehicleId → vrow.featured_image_id = some db.nextImageId := by
  have hfil : (db.vehicle_images ++
      [(⟨db.nextImageId, vehicleId, imageUrl, some fp, false, 0⟩ : ImageRow)]).filter
        (fun r => r.vehicle_id == vehicleId)
      = [⟨db.nextImageId, vehicleId, imageUrl, some fp, false, 0⟩] := by
    rw [List.filter_append, hempty]
    simp
  have heq : dlFeatured db vehicleId imageUrl fp =
      updateVehicles
        { vehicles := db.vehicles
          vehicle_images := db.vehicle_images ++
            [⟨db.nextImageId, vehicleId, imageUrl, some fp, false, 0⟩]
          pending_images := db.pending_images
          taxonomy_terms := db.taxonomy_terms
          vehicle_taxonomies := db.vehicle_taxonomies
          nextVehicleId := db.nextVehicleId
          nextImageId := db.nextImageId + 1
          nextPendingId := db.nextPendingId
          nextTermId := db.nextTermId }
        (fun r => r.id == vehicleId)
        (fun r => { r with featured_image_id := some db.nextImageId }) := by
    simp only [dlFeatured, hfil, List.length_singleton, beq_self_eq_true, if_true]
  rw [heq]
  constructor
  · simp only [updateVehicles]
    rw [hfil]
    rfl
  · intro vrow hvrow hvid
    simp only [updateVehicles, List.mem_map] at hvrow
    rcases hvrow with ⟨w, hw, rfl⟩
    by_cases hwid : (w.id == vehicleId) = true
    · simp [hwid]
    · exfalso
      rw [if_neg (by simp [hwid])] at hvid
      exact hwid (by simpa using hvid)

/-- C10: `downloadImage` preserves the featured-image invariant (at most
one `is_featured` row per vehicle, and such a row is the one referenced by
`featured_image_id`), and when the downloaded image is the vehicle's only
image row it becomes the vehicle's featured image reference. -/
theorem downloadImage_featured (net : String → Option String)
    (imagesPath : String) (now : Nat) (st : SyncState) (imageUrl : String)
    (vehicleId : Nat) (hinv : FeaturedInv st.db) :
    FeaturedInv (downloadImage net imagesPath now st imageUrl vehicleId).2.db
    ∧ (st.db.vehicle_images.filter (fun r => r.vehicle_id == vehicleId) = [] →
      ∀ c, net (replaceFirst imageUrl "/th-" "/") = some c →
      (((downloadImage net imagesPath now st imageUrl vehicleId).2.db.vehicle_images.filter
          (fun r => r.vehicle_id == vehicleId)).map
        (fun r => (r.id, r.image_url, r.is_featured)))
          = [(st.db.nextImageId, imageUrl, false)]
      ∧ ∀ vrow ∈ (downloadImage net imagesPath now st imageUrl vehicleId).2.db.vehicles,
          vrow.id = vehicleId → vrow.featured_image_id = some st.db.nextImageId) := by
  cases hex : st.db.vehicle_images.find? (fun r =>
      r.vehicle_id == vehicleId && r.image_url == imageUrl) with
  | some row =>
    have heq : downloadImage net imagesPath now st imageUrl vehicleId =
        (⟨true, "Imagen ya existe para vehículo " ++ toString vehicleId, some row.id⟩,
         { st with db := deletePending st.db vehicleId imageUrl }) := by
      unfold downloadImage
      rw [hex]
    rw [heq]
    refine ⟨hinv, fun hempt c hnet => absurd hempt ?_⟩
    have hmem : row ∈ st.db.vehicle_images := List.mem_of_find?_eq_some hex
    have hprop := List.find?_some hex
    have h1 : (row.vehicle_id == vehicleId) = true := by
      simp only [Bool.and_eq_true] at hprop
      exact hprop.1
    have : row ∈ st.db.vehicle_images.filter (fun r => r.vehicle_id == vehicleId) :=
      List.mem_filter.mpr ⟨hmem, h1⟩
    intro hnil
    rw [hnil] at this
    cases this
  | none =>
    cases hnet0 : net (replaceFirst imageUrl "/th-" "/") with
    | none =>
      have heq : downloadImage net imagesPath now st imageUrl vehicleId =
          (⟨false, "Error: download failed", none⟩,
           { st with downloads := st.downloads ++ [replaceFirst imageUrl "/th-" "/"] }) := by
        unfold downloadImage
        rw [hex]
        simp only [hnet0]
      rw [heq]
      exact ⟨hinv, fun _ c hnet => by simp at hnet⟩
    | some data =>
      rw [downloadImage_success_eq net imagesPath now st imageUrl vehicleId data hex hnet0]
      refine ⟨?_, fun hempt c _ => ?_⟩
      · exact FeaturedInv_dlFeatured st.db vehicleId imageUrl
          (dlFilePath imagesPath now imageUrl vehicleId) hinv
      · exact dlFeatured_first_image st.db vehicleId imageUrl
          (dlFilePath imagesPath now imageUrl vehicleId) hempt

/-- Witness for C10: the invariant holds on `dbPub` (its only image row is
not featured) and is preserved by a successful first download for a fresh
vehicle id, which becomes the featured reference. -/
theorem downloadImage_featured_witness :
    FeaturedInv dbPub
    ∧ FeaturedInv (downloadImage (fun _ => some "d") "/img" 9
        ⟨{ dbPub with vehicle_images := [] }, [], []⟩ "px" 1).2.db
    ∧ (((downloadImage (fun _ => some "d") "/img" 9
        ⟨{ dbPub with vehicle_images := [] }, [], []⟩ "px" 1).2.db.vehicle_images.filter
          (fun r => r.vehicle_id == 1)).map
        (fun r => (r.id, r.image_url, r.is_featured))) = [(2, "px", false)] :=
  ⟨by unfold FeaturedInv; decide,
   (downloadImage_featured (fun _ => some "d") "/img" 9
      ⟨{ dbPub with vehicle_images := [] }, [], []⟩ "px" 1
      (by unfold FeaturedInv; decide)).1,
   ((downloadImage_featured (fun _ => some "d") "/img" 9
      ⟨{ dbPub with vehicle_images := [] }, [], []⟩ "px" 1
      (by unfold FeaturedInv; decide)).2 (by decide) "d" rfl).1⟩

/-- `blockedOfficeReason` fires exactly when the blocked substring occurs
in the lowered location name or branch-office name. -/
theorem blockedOfficeReason_isSome (s : Stock) (b : String) :
    (blockedOfficeReason s b).isSome =
      (jsIncludes (jsToLower ((s.location_name).getD "")) (jsToLower b)
        || jsIncludes (jsToLower ((s.branch_office_name).getD "")) (jsToLower b)) := by
  unfold blockedOfficeReason
  cases h1 : jsIncludes (jsToLower ((s.location_name).getD "")) (jsToLower b) <;>
    cases h2 : jsIncludes (jsToLower ((s.branch_office_name).getD "")) (jsToLower b) <;>
      simp [h1, h2]

/-- `blockedStatusReason` fires exactly when the lowered status equals the
lowered blocked value. -/
theorem blockedStatusReason_isSome (s : Stock) (b : String) :
    (blockedStatusReason s b).isSome =
      (jsToLower ((s.status).getD "") == jsToLower b) := by
  unfold blockedStatusReason
  cases h : (jsToLower ((s.status).getD "") == jsToLower b) <;> simp [h]

/-- A `findSome?` over reason producers is exhausted exactly when no
element satisfies the corresponding Boolean check. -/
theorem findSome?_none_iff_any_false {α β : Type} (f : α → Option β) (g : α → Bool)
    (hfg : ∀ a, (f a).isSome = g a) (l : List α) :
    (l.findSome? f = none) ↔ l.any g = false := by
  rw [List.findSome?_eq_none_iff, List.any_eq_false]
  constructor
  · intro h a ha
    have hga := hfg a
    rw [h a ha] at hga
    simp [← hga]
  · intro h a ha
    have hga := hfg a
    cases hfa : f a with
    | none => rfl
    | some b0 =>
      rw [hfa] at hga
      exact absurd hga.symm (by simpa using h a ha)

/-- C1: the Filter Evaluator equals the spec-side cascade: the verdict is
`admit = false` exactly when one of the six checks of §4.1 fails, and the
reported reason is the one of the earliest failing check, later checks
never being consulted; verdict and reason are a pure function of the
record and of the configuration. -/
theorem shouldOmitVehicle_eq_specFilterEvaluator (cfg : FilterConfig)
    (v : AsofixVehicle) :
    shouldOmitVehicle cfg v = specFilterEvaluator cfg v := by
  unfold shouldOmitVehicle specFilterEvaluator
  cases hfind : v.stocks.find? stockIsActive with
  | none =>
    have hany : v.stocks.any stockIsActive = false := by
      rw [List.any_eq_false]
      intro x hx
      simpa using List.find?_eq_none.mp hfind x hx
    simp [specNoActiveStock, hany]
  | some s =>
    have hany : v.stocks.any stockIsActive = true :=
      List.any_eq_true.mpr ⟨s, List.mem_of_find?_eq_some hfind, List.find?_some hfind⟩
    have hact : activeStockOf v = some s := hfind
    have hno : specNoActiveStock v = false := by
      unfold specNoActiveStock
      rw [hany]
      rfl
    rw [hno]
    simp only [Bool.false_eq_true, if_false]
    cases hbl : cfg.blockedBranchOffices.findSome? (blockedOfficeReason s) with
    | some r =>
      have hblt : specBlockedLocation cfg v = true := by
        unfold specBlockedLocation
        rw [hact]
        rcases List.exists_of_findSome?_eq_some hbl with ⟨b, hb, hfb⟩
        rw [List.any_eq_true]
        refine ⟨b, hb, ?_⟩
        rw [← blockedOfficeReason_isSome, hfb]
        rfl
      rw [hblt]
      simp [hact, hbl]
    | none =>
      have hblf : specBlockedLocation cfg v = false := by
        unfold specBlockedLocation
        rw [hact]
        exact (findSome?_none_iff_any_false _ _ (blockedOfficeReason_isSome s) _).mp hbl
      rw [hblf]
      simp only [Bool.false_eq_true, if_false]
      by_cases hpr : listPriceOf v ≤ cfg.minPrice
      · have hprt : specPriceTooLow cfg v = true := by
          unfold specPriceTooLow
          exact decide_eq_true hpr
        rw [if_pos hpr, hprt]
        simp
      · have hprf : specPriceTooLow cfg v = false := by
          unfold specPriceTooLow
          exact decide_eq_false hpr
        rw [if_neg hpr, hprf]
        simp only [Bool.false_eq_true, if_false]
        cases hbs : cfg.blockedStatuses.findSome? (blockedStatusReason s) with
        | some r2 =>
          have hbst : specBlockedStatus cfg v = true := by
            unfold specBlockedStatus
            rw [hact]
            rcases List.exists_of_findSome?_eq_some hbs with ⟨b, hb, hfb⟩
            rw [List.any_eq_true]
            refine ⟨b, hb, ?_⟩
            rw [← blockedStatusReason_isSome, hfb]
            rfl
          rw [hbst]
          simp [hact, hbs]
        | none =>
          have hbsf : specBlockedStatus cfg v = false := by
            unfold specBlockedStatus
            rw [hact]
            exact (findSome?_none_iff_any_false _ _ (blockedStatusReason_isSome s) _).mp hbs
          rw [hbsf]
          simp only [Bool.false_eq_true, if_false]
          have hplate : (!strTruthy v.license_plate
              || ((jsTrim ((v.license_plate).getD "")).length == 0))
              = specMissingPlate v := by
            unfold specMissingPlate strTruthy
            cases v.license_plate with
            | none => rfl
            | some p =>
              by_cases hp : p = ""
              · subst hp
                simp
              · simp [hp]
          rw [hplate]
          cases hmp : specMissingPlate v with
          | true => simp
          | false =>
            simp only [Bool.false_eq_true, if_false]
            have himg : (cfg.requireImages
                && !(v.images.length > 0
                     && v.images.any (fun img => strTruthy img.url
                          && (jsTrim ((img.url).getD "")).length > 0)))
                = specNoImages cfg v := by
              unfold specNoImages
              cases hq : v.images.any (fun img => strTruthy img.url
                  && (jsTrim ((img.url).getD "")).length > 0) with
              | false => simp [hq]
              | true =>
                have hlen : 0 < v.images.length := by
                  rcases List.any_eq_true.mp hq with ⟨im, him, _⟩
                  exact List.length_pos.mpr (List.ne_nil_of_mem him)
                simp [hq, hlen]
            rw [himg]

end CarSync
